import Mathlib

/-!
Verification of the run-orchestration core of the `jockey` repository
(`src/services/orchestrator.py`, data model in `src/models/schemas.py`).

Modelling conventions, chosen to mirror the Python source:
* `Optional[T]` fields become `Option T`; a missing value is `none`.
* Python `float` ticket amounts become `Rat` (the claims only compare and
  test against zero, where rationals agree with the source's numerics).
* Python string truthiness (`if s:`) is `none`-or-empty-string falsity;
  `a or b` on optional strings is `pyOrS`.
* `str.strip()` is `String.trim`, `str.lower()` is `String.toLower`.
* ISO-8601 timestamps are modelled as ticks of a monotone counter, since
  only their relative order could ever matter.
* A collaborator call that can raise is an `Except String` value supplied
  by an `Env`; the raised message is the `error` payload.
-/

namespace Jockey

/-- Python truthiness of an optional string: `None` and `""` are falsy. -/
def strTruthy : Option String → Bool
  | none => false
  | some s => s != ""

/-- Python `a or b` on optional strings: keep `a` when truthy, else `b`. -/
def pyOrS : Option String → Option String → Option String
  | none, b => b
  | some s, b => if s = "" then b else some s

/-- Python truthiness of an optional number: `None` and `0` are falsy. -/
def numTruthy : Option Rat → Bool
  | none => false
  | some q => q != 0

/-- Status of an orchestration run or of one step (schemas.RunStatus). -/
inductive RunStatus where
  | pending
  | running
  | succeeded
  | failed
deriving DecidableEq, Repr

/-- Investment ticket size range in USD (schemas.TicketSize). -/
structure TicketSize where
  minimum : Option Rat := none
  maximum : Option Rat := none
deriving DecidableEq, Repr

/-- Unified investor record (schemas.Investor). -/
structure Investor where
  id : Option String := none
  name : String
  website : Option String := none
  linkedin_url : Option String := none
  investor_type : Option String := none
  industry_focus : Option String := none
  location : Option String := none
  ticket_min : Option Rat := none
  ticket_max : Option Rat := none
  is_warm_lead : Bool := false
  source : Option String := none
deriving DecidableEq, Repr

/-- Structured query parsed from natural language (schemas.ParsedQuery).
The opaque `_metadata` diagnostics bag is omitted: the orchestrator never
reads it. -/
structure ParsedQuery where
  industry : Option String := none
  location : Option String := none
  ticket_size : Option TicketSize := none
  company_stage : Option String := none
  source_project : Option String := none
  new_project : Option String := none
  investor_type : Option String := none
  requirements : Option (List String) := none
  timeframe : Option String := none
  portfolio_focus : Option String := none
  exit_strategy : Option String := none
deriving DecidableEq, Repr

/-- Company record from the external source (schemas.Company); the fields
the orchestrator never reads (description, employee counts, …) are
omitted. -/
structure Company where
  id : Option String := none
  name : String
  website : Option String := none
  linkedin_url : Option String := none
  industry : Option String := none
  location : Option String := none
  source : Option String := none
deriving DecidableEq, Repr

/-- Search query handed to the external source (schemas.CompanySearchQuery);
only the fields the orchestrator populates are modelled. -/
structure CompanySearchQuery where
  keywords : Option String := none
  industry : Option String := none
  location : Option String := none
deriving DecidableEq, Repr

/-- Generated email content (schemas.EmailDraft). -/
structure EmailDraft where
  subject : String
  body_text : String
  body_html : Option String := none
deriving DecidableEq, Repr

/-- Calendar slot (schemas.AvailabilitySlot). -/
structure AvailabilitySlot where
  start_iso : String
  end_iso : String
  timezone : Option String := none
deriving DecidableEq, Repr

/-- Options of one orchestration request (schemas.OrchestrateOptions). -/
structure OrchestrateOptions where
  dry_run : Bool := true
  max_results : Nat := 50
  include_email_draft : Bool := true
  include_calendar : Bool := true
  create_project : Bool := true
deriving DecidableEq, Repr

/-- One orchestration request (schemas.OrchestrateRequest). -/
structure OrchestrateRequest where
  query : String
  options : OrchestrateOptions := {}
deriving DecidableEq, Repr

/-- Output artifacts of a successful run (schemas.OrchestrateResult). -/
structure OrchestrateResult where
  parsed_query : Option ParsedQuery := none
  investors : List Investor := []
  csv_path : Option String := none
  email_draft : Option EmailDraft := none
  availability : Option (List AvailabilitySlot) := none
  project_id : Option String := none
deriving DecidableEq, Repr

/-- Persisted run state (schemas.OrchestrateRun); the two ISO timestamps are
modelled as ticks of a monotone counter. -/
structure OrchestrateRun where
  run_id : String
  status : RunStatus
  error_message : Option String := none
  steps : List (String × RunStatus) := []
  result : Option OrchestrateResult := none
  created_at : Nat
  updated_at : Nat
deriving DecidableEq, Repr

/-- API response of `orchestrate` (schemas.OrchestrateResponse). -/
structure OrchestrateResponse where
  run_id : String
  status : RunStatus
  result : Option OrchestrateResult := none
  error_message : Option String := none
deriving DecidableEq, Repr

/-! ### Merge and dedupe (Orchestrator._merge_and_dedupe) -/

/-- Dedupe key of `_merge_and_dedupe`:
`(inv.website or inv.linkedin_url or inv.name or "").strip().lower()`. -/
def invKey (inv : Investor) : String :=
  ((pyOrS inv.website (pyOrS inv.linkedin_url (pyOrS (some inv.name) (some "")))).getD
    "").trim.toLower

/-- Loop body of `_merge_and_dedupe`: `seen` holds the keys of the records
kept so far; a record with a non-empty key already in `seen` is skipped,
every other record is appended, and its key is added to `seen` when
non-empty. -/
def mergeAux : List Investor → List String → List Investor
  | [], _ => []
  | inv :: rest, seen =>
    if invKey inv ≠ "" ∧ invKey inv ∈ seen then
      mergeAux rest seen
    else if invKey inv ≠ "" then
      inv :: mergeAux rest (invKey inv :: seen)
    else
      inv :: mergeAux rest seen

/-- `Orchestrator._merge_and_dedupe`: iterate over `airtable + apollo`. -/
def mergeAndDedupe (airtable_investors apollo_investors : List Investor) : List Investor :=
  mergeAux (airtable_investors ++ apollo_investors) []

/-- A field is present when it is neither missing nor the empty string (an
empty website/URL/name carries no identifying content and falls through to
the next field, exactly as the source's `or` chain does). -/
def present : Option String → Bool
  | none => false
  | some s => s != ""

/-- Dedupe key as the specification words it: the first present field among
website, professional-network URL, name, trimmed and case-folded; the empty
string when all are absent. -/
def specKey (inv : Investor) : String :=
  if present inv.website then (inv.website.getD "").trim.toLower
  else if present inv.linkedin_url then (inv.linkedin_url.getD "").trim.toLower
  else if present (some inv.name) then inv.name.trim.toLower
  else ""

/-- Merge as the specification words it: `prev` holds the keys of every
earlier record with a non-empty key (seen-set semantics); a record with an
empty key is always kept; a record whose non-empty key was already seen is
dropped; survivors keep their order. -/
def specMergeAux : List Investor → List String → List Investor
  | [], _ => []
  | inv :: rest, prev =>
    if specKey inv = "" then inv :: specMergeAux rest prev
    else if specKey inv ∈ prev then specMergeAux rest (specKey inv :: prev)
    else inv :: specMergeAux rest (specKey inv :: prev)

/-- Specification-worded merge over `sourceA` then `sourceB`. -/
def specMerge (a b : List Investor) : List Investor :=
  specMergeAux (a ++ b) []

/-- Trimming and case-folding the empty string gives back the empty string
(`"".strip().lower() == ""` in the source's terms).  Proved by unfolding the
well-founded recursions of `String.trim` and `String.map` one step each. -/
theorem trim_toLower_empty : "".trim.toLower = "" := by
  show ("".toSubstring.trim.toString).toLower = ""
  simp only [String.toSubstring]
  rw [Substring.trim]
  rw [Substring.takeWhileAux]
  rw [dif_neg (by decide)]
  rw [Substring.takeRightWhileAux]
  rw [dif_neg (by decide)]
  rw [show ({ str := "", startPos := { byteIdx := 0 }, stopPos := "".endPos } : Substring).toString = "" from rfl]
  rw [String.toLower, String.map, String.mapAux]
  rw [dif_pos (by decide)]

theorem invKey_eq_specKey (inv : Investor) : invKey inv = specKey inv := by
  unfold invKey specKey present pyOrS
  cases hw : inv.website with
  | none =>
    cases hl : inv.linkedin_url with
    | none =>
      by_cases hn : inv.name = "" <;> simp [hn] <;> exact trim_toLower_empty
    | some l =>
      by_cases hl0 : l = "" <;> by_cases hn : inv.name = "" <;> simp [hl0, hn] <;>
        exact trim_toLower_empty
  | some w =>
    by_cases hw0 : w = ""
    · cases hl : inv.linkedin_url with
      | none => by_cases hn : inv.name = "" <;> simp [hw0, hn] <;> exact trim_toLower_empty
      | some l =>
        by_cases hl0 : l = "" <;> by_cases hn : inv.name = "" <;>
          simp [hw0, hl0, hn] <;> exact trim_toLower_empty
    · simp [hw0]

theorem mergeAux_eq_specMergeAux (l : List Investor) :
    ∀ s p : List String, (∀ k, k ∈ s ↔ k ∈ p) → mergeAux l s = specMergeAux l p := by
  induction l with
  | nil => intro s p _; rfl
  | cons inv rest ih =>
    intro s p hsp
    simp only [mergeAux, specMergeAux, invKey_eq_specKey]
    by_cases hk : specKey inv = ""
    · rw [if_neg (by simp [hk]), if_neg (by simp [hk]), if_pos hk]
      exact congrArg _ (ih s p hsp)
    · by_cases hmem : specKey inv ∈ s
      · have hmem2 : specKey inv ∈ p := (hsp _).mp hmem
        rw [if_pos ⟨hk, hmem⟩, if_neg hk, if_pos hmem2]
        refine ih s (specKey inv :: p) ?_
        intro k
        constructor
        · intro h; exact List.mem_cons_of_mem _ ((hsp k).mp h)
        · intro h
          rcases List.mem_cons.mp h with h | h
          · subst h; exact hmem
          · exact (hsp k).mpr h
      · have hmem2 : specKey inv ∉ p := fun h => hmem ((hsp _).mpr h)
        rw [if_neg (fun h => hmem h.2), if_pos hk, if_neg hk, if_neg hmem2]
        refine congrArg _ (ih (specKey inv :: s) (specKey inv :: p) ?_)
        intro k
        simp only [List.mem_cons]
        exact or_congr Iff.rfl (hsp k)

theorem mergeAux_sublist (l : List Investor) : ∀ s, List.Sublist (mergeAux l s) l := by
  induction l with
  | nil => intro s; simp [mergeAux]
  | cons inv rest ih =>
    intro s
    simp only [mergeAux]
    split
    · exact List.Sublist.cons _ (ih s)
    · split
      · exact List.Sublist.cons₂ _ (ih _)
      · exact List.Sublist.cons₂ _ (ih s)

/-- C1: `merge(A, B)` processes all of A then all of B; each record's dedupe
key is the first present field among website, professional-network URL and
name, trimmed and case-folded (empty when all are absent); a record whose
non-empty key was already seen is dropped, a record with an empty key is
always kept, and survivors keep their relative input order. Stated as:
the source's merge coincides with the merge worded by the specification
(seen-set over `A ++ B` with the priority key), and its output is a sublist
of `A ++ B`. -/
theorem merge_follows_spec (A B : List Investor) :
    mergeAndDedupe A B = specMerge A B ∧
      List.Sublist (mergeAndDedupe A B) (A ++ B) := by
  constructor
  · exact mergeAux_eq_specMergeAux (A ++ B) [] [] (fun k => Iff.rfl)
  · exact mergeAux_sublist (A ++ B) []

/-! ### Ticket-size range filter (orchestrate, merge_filter step) -/

/-- Exclusion test of the range filter: the record is dropped when the
filter's minimum and the record's `ticket_max` are both present with
`ticket_max < minimum`, or the filter's maximum and the record's
`ticket_min` are both present with `ticket_min > maximum`. -/
def excludedByTicket (t : TicketSize) (i : Investor) : Bool :=
  (match t.minimum, i.ticket_max with
   | some m, some tm => decide (tm < m)
   | _, _ => false) ||
  (match t.maximum, i.ticket_min with
   | some m, some tn => decide (m < tn)
   | _, _ => false)

/-- Filtering loop of the merge_filter step: records failing neither bound
check are appended to `filtered` in order. -/
def rangeFilterLoop (t : TicketSize) : List Investor → List Investor
  | [] => []
  | i :: rest =>
    if excludedByTicket t i then rangeFilterLoop t rest
    else i :: rangeFilterLoop t rest

/-- Guard of the range filter, from `if ts and (ts.minimum or ts.maximum):`
with Python truthiness: a missing ticket size, and bounds that are absent
or zero, leave the filter unapplied. -/
def ticketFilterApplies : Option TicketSize → Bool
  | none => false
  | some t => numTruthy t.minimum || numTruthy t.maximum

/-- The merge_filter step's conditional application of the range filter. -/
def applyTicketFilter (ts : Option TicketSize) (l : List Investor) : List Investor :=
  match ts with
  | none => l
  | some t => if ticketFilterApplies (some t) then rangeFilterLoop t l else l

theorem rangeFilterLoop_eq_filter (t : TicketSize) (l : List Investor) :
    rangeFilterLoop t l = l.filter (fun i => !excludedByTicket t i) := by
  induction l with
  | nil => rfl
  | cons i rest ih =>
    simp only [rangeFilterLoop, List.filter]
    by_cases h : excludedByTicket t i <;> simp [h, ih]

theorem excludedByTicket_iff (t : TicketSize) (i : Investor) :
    excludedByTicket t i = true ↔
      ((∃ m tm, t.minimum = some m ∧ i.ticket_max = some tm ∧ tm < m) ∨
       (∃ m tn, t.maximum = some m ∧ i.ticket_min = some tn ∧ m < tn)) := by
  unfold excludedByTicket
  rcases hmin : t.minimum with _ | m <;> rcases hmax : t.maximum with _ | M <;>
    rcases htm : i.ticket_max with _ | tm <;> rcases htn : i.ticket_min with _ | tn <;>
      simp [hmin, hmax, htm, htn]

/-- C4: under the range filter, a record is excluded iff its own maximum
bound is known and strictly below the filter's minimum, or its own minimum
bound is known and strictly above the filter's maximum; a record with
neither bound known is always retained. -/
theorem range_filter_exclusion (t : TicketSize) (l : List Investor) (i : Investor) :
    (i ∈ rangeFilterLoop t l ↔ i ∈ l ∧
      ¬((∃ m tm, t.minimum = some m ∧ i.ticket_max = some tm ∧ tm < m) ∨
        (∃ m tn, t.maximum = some m ∧ i.ticket_min = some tn ∧ m < tn))) ∧
    (i.ticket_min = none → i.ticket_max = none → i ∈ l → i ∈ rangeFilterLoop t l) := by
  have hmem : i ∈ rangeFilterLoop t l ↔ i ∈ l ∧ ¬(excludedByTicket t i = true) := by
    rw [rangeFilterLoop_eq_filter]
    simp [List.mem_filter]
  constructor
  · rw [hmem, excludedByTicket_iff]
  · intro hmin hmax hil
    rw [hmem, excludedByTicket_iff]
    refine ⟨hil, ?_⟩
    rintro (⟨m, tm, _, htm, _⟩ | ⟨m, tn, _, htn, _⟩)
    · rw [hmax] at htm; exact Option.noConfusion htm
    · rw [hmin] at htn; exact Option.noConfusion htn

/-- Record with no range data of its own, used to witness C4. -/
def invNoBounds : Investor := { name := "acme" }

/-- Witness for C4: a record with no bounds of its own survives an applied range filter. -/
theorem range_filter_exclusion_witness :
    invNoBounds.ticket_min = none ∧ invNoBounds.ticket_max = none ∧
      invNoBounds ∈ rangeFilterLoop { minimum := some 1, maximum := some 2 } [invNoBounds] :=
  ⟨rfl, rfl,
    (range_filter_exclusion { minimum := some 1, maximum := some 2 } [invNoBounds]
      invNoBounds).2 rfl rfl (List.mem_singleton.mpr rfl)⟩

/-- Ticket size whose bounds are both present and zero, for C5. -/
def tsZero : TicketSize := { minimum := some 0, maximum := some 0 }

/-- Record that the zero-bound filter would exclude, for C5. -/
def invFive : Investor := { name := "acme", ticket_min := some 5, ticket_max := some 9 }

/-- C5 counterexample: a filter whose minimum and maximum bounds are both
present with value zero is treated as specifying no bound — the range
filter is not applied, and a record it would have excluded (its minimum 5
exceeds the filter's maximum 0) passes through unchanged. -/
theorem ticket_zero_bound_filter_skipped :
    tsZero.minimum = some 0 ∧ tsZero.maximum = some 0 ∧
    ticketFilterApplies (some tsZero) = false ∧
    applyTicketFilter (some tsZero) [invFive] = [invFive] ∧
    excludedByTicket tsZero invFive = true :=
  ⟨rfl, rfl, rfl, rfl, rfl⟩

/-- C5 amended: the range filter is applied exactly when the parsed filter
carries a ticket size one of whose bounds is present and nonzero; a bound
that is present with value zero is treated like an absent bound (Python
truthiness of `0`), never as a constraint. -/
theorem ticket_filter_applies_iff (ts : Option TicketSize) :
    ticketFilterApplies ts = true ↔
      ∃ t, ts = some t ∧
        ((∃ m, t.minimum = some m ∧ m ≠ 0) ∨ (∃ m, t.maximum = some m ∧ m ≠ 0)) := by
  cases ts with
  | none => simp [ticketFilterApplies]
  | some t =>
    rcases hmin : t.minimum with _ | m <;> rcases hmax : t.maximum with _ | M <;>
      simp [ticketFilterApplies, numTruthy, hmin, hmax]

/-- Conversion of an external-source company into an investor record, from
the fetch_apollo step of `orchestrate` (ticket bounds are not available in
the general company search and are set to `None`). -/
def apolloToInvestor (c : Company) : Investor :=
  { id := c.id
    name := c.name
    website := c.website
    linkedin_url := c.linkedin_url
    investor_type := some "Unknown"
    industry_focus := c.industry
    location := c.location
    ticket_min := none
    ticket_max := none
    is_warm_lead := false
    source := pyOrS c.source (some "apollo") }

/-- C10: every record produced by the external-source fetch step has both
of its own range bounds absent, so the range filter can never exclude it. -/
theorem apollo_records_never_range_excluded (c : Company) (t : TicketSize) :
    (apolloToInvestor c).ticket_min = none ∧ (apolloToInvestor c).ticket_max = none ∧
      excludedByTicket t (apolloToInvestor c) = false := by
  refine ⟨rfl, rfl, ?_⟩
  rcases hmin : t.minimum with _ | m <;> rcases hmax : t.maximum with _ | M <;>
    simp [excludedByTicket, apolloToInvestor, hmin, hmax]

/-! ### Run persistence (C6): `_save_run` rewrites the run file in place -/

/-- Observable contents of a run's file while `_save_run` rewrites it.
`open(path, "w")` truncates the existing file and the serialized record is
then written out sequentially, so an interruption exposes the previous
content, the empty file, or any prefix of the new content. -/
def saveRunObservable (prev next : String) : List String :=
  prev :: (List.range (next.data.length + 1)).map (fun k => String.mk (next.data.take k))

/-- Observable contents under the write-to-temp-then-rename discipline that
the docstring of `_save_run` and the specification promise. -/
def atomicSaveObservable (prev next : String) : List String :=
  [prev, next]

/-- Serialized run record before the second save, for C6. -/
def runFileV1 : String := "run 42 pending"

/-- Serialized run record being written by the second save, for C6. -/
def runFileV2 : String := "run 42 running"

/-- C6 (code defect): interrupting `_save_run` between two consecutive
saves can leave the run file holding the empty string or the prefix
`"run 42 run"` — contents matching neither the pre-write nor the post-write
record — so a concurrent or subsequent load can observe a partially written
record.  An atomic write-then-rename save would only ever expose the old or
the new content. -/
theorem save_run_not_atomic :
    ("" ∈ saveRunObservable runFileV1 runFileV2 ∧ "" ≠ runFileV1 ∧ "" ≠ runFileV2) ∧
    ("run 42 run" ∈ saveRunObservable runFileV1 runFileV2 ∧
      "run 42 run" ≠ runFileV1 ∧ "run 42 run" ≠ runFileV2) ∧
    (∀ c ∈ atomicSaveObservable runFileV1 runFileV2, c = runFileV1 ∨ c = runFileV2) := by
  refine ⟨⟨?_, by decide, by decide⟩, ⟨?_, by decide, by decide⟩, ?_⟩
  · decide
  · decide
  · intro c hc
    rcases List.mem_cons.mp hc with h | h
    · exact Or.inl h
    · exact Or.inr (List.mem_singleton.mp h)

/-! ### Orchestration state machine (Orchestrator.orchestrate)

The collaborators (OpenAI, Airtable, Apollo, CSV export, Calendar, Gmail)
are supplied by an `Env`; each call yields `Except String α`, where the
`error` payload is the message of the exception it raises.  `saveFail n`
makes the n-th `_save_run` call raise with the given message, modelling
persistence failures.  The `St` record carries the in-memory run, the last
durably saved copy (`store`), a tick clock standing in for wall-clock
timestamps, and two observation logs: every `_mark_step` event and every
collaborator invocation, in order. -/

/-- Result of `parse_investor_query` as the orchestrator inspects it: a
dict with a truthy `error` key, a well-formed dict (already mapped through
`_to_parsed_query`, a field-for-field copy), or a non-dict payload. -/
inductive ParseRaw where
  | errorDict : String → ParseRaw
  | okDict : ParsedQuery → ParseRaw
  | nonDict : ParseRaw

/-- Collaborator behaviour and identifier generation for one request. -/
structure Env where
  runId : String
  parse : String → Except String ParseRaw
  airtable : Option String → Except String (List Investor)
  apollo : CompanySearchQuery → Nat → Except String (List Company)
  exportCsv : List Investor → Except String String
  calendar : Unit → Except String (List AvailabilitySlot)
  draft : List Investor → Option (List AvailabilitySlot) → ParsedQuery →
    Except String EmailDraft
  createProject : String → List Investor → Except String (Option String)
  saveFail : Nat → Option String

/-- Execution state threaded through `orchestrate`. -/
structure St where
  run : OrchestrateRun
  clock : Nat
  saveCount : Nat
  store : Option OrchestrateRun
  calls : List String
  events : List (String × RunStatus)

/-- Update one step's status in the insertion-ordered step map, mirroring
`run.steps[step] = status` on a Python dict: an existing key keeps its
position, a new key is appended. -/
def setStep : List (String × RunStatus) → String → RunStatus → List (String × RunStatus)
  | [], s, v => [(s, v)]
  | (k, u) :: rest, s, v =>
    if k = s then (k, v) :: rest else (k, u) :: setStep rest s v

/-- Lookup in the step map. -/
def lookupStep : List (String × RunStatus) → String → Option RunStatus
  | [], _ => none
  | (k, u) :: rest, s => if k = s then some u else lookupStep rest s

/-- One `_save_run` call: it either raises (message given by `saveFail` at
the current call index) or replaces the durably stored copy with the
current in-memory run. -/
def trySave (env : Env) (st : St) : Option String × St :=
  match env.saveFail st.saveCount with
  | some msg => (some msg, { st with saveCount := st.saveCount + 1 })
  | none => (none, { st with saveCount := st.saveCount + 1, store := some st.run })

/-- Outcome of a code region executed inside the `try` block: a value or a
raised-and-catchable exception, each with the state at that point. -/
inductive Res (α : Type) where
  | ok : α → St → Res α
  | err : String → St → Res α

/-- State carried by a `Res`, whichever the outcome. -/
def Res.state : Res α → St
  | .ok _ st => st
  | .err _ st => st

/-- `_mark_step`: set the step's status, stamp the update time, persist.
The in-memory mutation precedes the save, so a failing save still leaves
the new status visible to the top-level handler. -/
def markStep (env : Env) (st : St) (s : String) (v : RunStatus) : Res Unit :=
  match trySave env { st with
      run := { st.run with steps := setStep st.run.steps s v, updated_at := st.clock },
      clock := st.clock + 1,
      events := st.events ++ [(s, v)] } with
  | (some m, st2) => .err m st2
  | (none, st2) => .ok () st2

/-- One collaborator invocation: log the call, then surface its outcome. -/
def callStep (st : St) (c : String) (r : Except String α) : Res α :=
  match r with
  | .error m => .err m { st with calls := st.calls ++ [c] }
  | .ok a => .ok a { st with calls := st.calls ++ [c] }

/-- `_to_parsed_query` applied to a non-dict payload (treated as the empty
dict): every field is absent except `ticket_size`, which normalizes to an
empty `TicketSize` because the missing raw value is replaced by `{}`. -/
def emptyParsedQuery : ParsedQuery :=
  { ticket_size := some { minimum := none, maximum := none } }

/-- The parsed query the orchestrator proceeds with, per parse outcome. -/
def parsedOfRaw : ParseRaw → ParsedQuery
  | .okDict pq => pq
  | _ => emptyParsedQuery

/-- Airtable post-processing: mark warm leads and default the source tag. -/
def markWarmLead (i : Investor) : Investor :=
  { i with is_warm_lead := true, source := pyOrS i.source (some "airtable") }

/-- Guard of the fetch_apollo step: `parsed.industry or parsed.location or
parsed.investor_type` under Python truthiness. -/
def hasSearchCriteria (p : ParsedQuery) : Bool :=
  strTruthy p.industry || strTruthy p.location || strTruthy p.investor_type

/-- CompanySearchQuery built for the external source. -/
def mkCompanyQuery (p : ParsedQuery) : CompanySearchQuery :=
  { keywords := p.industry, industry := p.industry, location := p.location }

/-- Step parse_query: mark running, call the interpreter, raise on an
explicit error payload, mark succeeded. -/
def stageParse (env : Env) (req : OrchestrateRequest) (st : St) : Res ParsedQuery :=
  match markStep env st "parse_query" .running with
  | .err m st1 => .err m st1
  | .ok _ st1 =>
    match callStep st1 "parse" (env.parse req.query) with
    | .err m st2 => .err m st2
    | .ok pr st2 =>
      match pr with
      | .errorDict emsg => .err ("Parse error: " ++ emsg) st2
      | .okDict pq =>
        match markStep env st2 "parse_query" .succeeded with
        | .err m st3 => .err m st3
        | .ok _ st3 => .ok pq st3
      | .nonDict =>
        match markStep env st2 "parse_query" .succeeded with
        | .err m st3 => .err m st3
        | .ok _ st3 => .ok emptyParsedQuery st3

/-- Step fetch_airtable: mark running, fetch, mark warm leads, succeed. -/
def stageAirtable (env : Env) (parsed : ParsedQuery) (st : St) : Res (List Investor) :=
  match markStep env st "fetch_airtable" .running with
  | .err m st1 => .err m st1
  | .ok _ st1 =>
    match callStep st1 "airtable" (env.airtable parsed.source_project) with
    | .err m st2 => .err m st2
    | .ok invs st2 =>
      match markStep env st2 "fetch_airtable" .succeeded with
      | .err m st3 => .err m st3
      | .ok _ st3 => .ok (invs.map markWarmLead) st3

/-- Step fetch_apollo: run the external search when the parsed filter has
any of industry, location or investor type; otherwise record the step as
succeeded directly, with no call. -/
def stageApollo (env : Env) (req : OrchestrateRequest) (parsed : ParsedQuery)
    (st : St) : Res (List Investor) :=
  if hasSearchCriteria parsed then
    match markStep env st "fetch_apollo" .running with
    | .err m st1 => .err m st1
    | .ok _ st1 =>
      match callStep st1 "apollo"
          (env.apollo (mkCompanyQuery parsed) req.options.max_results) with
      | .err m st2 => .err m st2
      | .ok comps st2 =>
        match markStep env st2 "fetch_apollo" .succeeded with
        | .err m st3 => .err m st3
        | .ok _ st3 => .ok (comps.map apolloToInvestor) st3
  else
    match markStep env st "fetch_apollo" .succeeded with
    | .err m st1 => .err m st1
    | .ok _ st1 => .ok [] st1

/-- Step merge_filter: merge, dedupe, apply the conditional range filter. -/
def stageMergeFilter (env : Env) (parsed : ParsedQuery)
    (air apo : List Investor) (st : St) : Res (List Investor) :=
  match markStep env st "merge_filter" .running with
  | .err m st1 => .err m st1
  | .ok _ st1 =>
    match markStep env st1 "merge_filter" .succeeded with
    | .err m st2 => .err m st2
    | .ok _ st2 => .ok (applyTicketFilter parsed.ticket_size (mergeAndDedupe air apo)) st2

/-- Step export_csv: mark running, export, succeed with the path. -/
def stageExport (env : Env) (invs : List Investor) (st : St) : Res String :=
  match markStep env st "export_csv" .running with
  | .err m st1 => .err m st1
  | .ok _ st1 =>
    match callStep st1 "export" (env.exportCsv invs) with
    | .err m st2 => .err m st2
    | .ok path st2 =>
      match markStep env st2 "export_csv" .succeeded with
      | .err m st3 => .err m st3
      | .ok _ st3 => .ok path st3

/-- Step calendar, only when requested; otherwise availability stays None
and the step is never marked. -/
def stageCalendar (env : Env) (req : OrchestrateRequest) (st : St) :
    Res (Option (List AvailabilitySlot)) :=
  if req.options.include_calendar then
    match markStep env st "calendar" .running with
    | .err m st1 => .err m st1
    | .ok _ st1 =>
      match callStep st1 "calendar" (env.calendar ()) with
      | .err m st2 => .err m st2
      | .ok slots st2 =>
        match markStep env st2 "calendar" .succeeded with
        | .err m st3 => .err m st3
        | .ok _ st3 => .ok (some slots) st3
  else .ok none st

/-- Step email_draft, only when requested. -/
def stageEmail (env : Env) (req : OrchestrateRequest) (invs : List Investor)
    (avail : Option (List AvailabilitySlot)) (parsed : ParsedQuery) (st : St) :
    Res (Option EmailDraft) :=
  if req.options.include_email_draft then
    match markStep env st "email_draft" .running with
    | .err m st1 => .err m st1
    | .ok _ st1 =>
      match callStep st1 "draft" (env.draft invs avail parsed) with
      | .err m st2 => .err m st2
      | .ok mail st2 =>
        match markStep env st2 "email_draft" .succeeded with
        | .err m st3 => .err m st3
        | .ok _ st3 => .ok (some mail) st3
  else .ok none st

/-- Step create_project, only when requested, not a dry run, and a truthy
new-project name was extracted. -/
def stageCreateProject (env : Env) (req : OrchestrateRequest) (parsed : ParsedQuery)
    (invs : List Investor) (st : St) : Res (Option String) :=
  if req.options.create_project && !req.options.dry_run && strTruthy parsed.new_project then
    match markStep env st "create_project" .running with
    | .err m st1 => .err m st1
    | .ok _ st1 =>
      match callStep st1 "create_project"
          (env.createProject (parsed.new_project.getD "") invs) with
      | .err m st2 => .err m st2
      | .ok pid st2 =>
        match markStep env st2 "create_project" .succeeded with
        | .err m st3 => .err m st3
        | .ok _ st3 => .ok pid st3
  else .ok none st

/-- Body of the `try` block of `orchestrate`: the fixed step sequence, the
success-path finalization (status succeeded, result stored, saved) and the
success response. -/
def orchestrateBody (env : Env) (req : OrchestrateRequest) (st : St) :
    Res OrchestrateResponse :=
  match stageParse env req st with
  | .err m st1 => .err m st1
  | .ok parsed st1 =>
    match stageAirtable env parsed st1 with
    | .err m st2 => .err m st2
    | .ok air st2 =>
      match stageApollo env req parsed st2 with
      | .err m st3 => .err m st3
      | .ok apo st3 =>
        match stageMergeFilter env parsed air apo st3 with
        | .err m st4 => .err m st4
        | .ok invs st4 =>
          match stageExport env invs st4 with
          | .err m st5 => .err m st5
          | .ok path st5 =>
            match stageCalendar env req st5 with
            | .err m st6 => .err m st6
            | .ok avail st6 =>
              match stageEmail env req invs avail parsed st6 with
              | .err m st7 => .err m st7
              | .ok mail st7 =>
                match stageCreateProject env req parsed invs st7 with
                | .err m st8 => .err m st8
                | .ok pid st8 =>
                  let result : OrchestrateResult :=
                    { parsed_query := some parsed, investors := invs, csv_path := some path, email_draft := mail, availability := avail, project_id := pid }
                  let run9 : OrchestrateRun :=
                    { st8.run with status := .succeeded, result := some result, updated_at := st8.clock }
                  match trySave env { st8 with run := run9, clock := st8.clock + 1 } with
                  | (some m, st9) => .err m st9
                  | (none, st9) =>
                    .ok { run_id := st9.run.run_id, status := st9.run.status, result := st9.run.result } st9

/-- `_new_run` before its save: a fresh pending run with an empty step map
and both timestamps stamped (two `_now_iso` calls). -/
def initialState (env : Env) : St :=
  let run0 : OrchestrateRun :=
    { run_id := env.runId, status := .pending, error_message := none, steps := [], result := none, created_at := 0, updated_at := 1 }
  { run := run0, clock := 2, saveCount := 0, store := none, calls := [], events := [] }

/-- `orchestrate`: create and save the run (outside the `try` block — a
failing save here escapes), flip it to running and save again (also outside
the `try`), run the step sequence, and convert any exception caught by the
`except` handler into a failed run and a structured response.  The save in
the handler is itself outside any `try`, so its failure escapes too.  The
`Except.error` outcome models an exception reaching the caller. -/
def orchestrate (env : Env) (req : OrchestrateRequest) :
    Except String (OrchestrateResponse × St) :=
  match trySave env (initialState env) with
  | (some m, _) => .error m
  | (none, st1) =>
    match trySave env { st1 with run := { st1.run with status := .running } } with
    | (some m, _) => .error m
    | (none, st2) =>
      match orchestrateBody env req st2 with
      | .ok resp st3 => .ok (resp, st3)
      | .err m st3 =>
        let runF : OrchestrateRun :=
          { st3.run with status := .failed, error_message := some m, updated_at := st3.clock }
        match trySave env { st3 with run := runF, clock := st3.clock + 1 } with
        | (some m2, _) => .error m2
        | (none, st4) =>
          .ok ({ run_id := st4.run.run_id, status := st4.run.status, error_message := some m }, st4)

/-- Absence of persistence failures: no `_save_run` call raises. -/
def savesOk (env : Env) : Prop := ∀ n, env.saveFail n = none

/-- State reached when `orchestrate` enters its `try` block with persistence
healthy: the run is `running`, durably stored, two saves counted, and no
step has been marked or called yet. -/
def readyState (env : Env) : St :=
  let run1 : OrchestrateRun := { (initialState env).run with status := .running }
  { run := run1, clock := 2, saveCount := 2, store := some run1, calls := [], events := [] }

/-- State produced by the `except` handler from the state at the raise
point, when the handler's own save succeeds. -/
def handlerState (stF : St) (m : String) : St :=
  let runF : OrchestrateRun := { stF.run with status := .failed, error_message := some m, updated_at := stF.clock }
  { stF with run := runF, clock := stF.clock + 1, saveCount := stF.saveCount + 1, store := some runF }

theorem trySave_ok (env : Env) (h : savesOk env) (st : St) :
    trySave env st = (none, { st with saveCount := st.saveCount + 1, store := some st.run }) := by
  unfold trySave
  rw [h]

theorem trySave_snd_run (env : Env) (st : St) : ((trySave env st).2).run = st.run := by
  unfold trySave
  cases env.saveFail st.saveCount <;> rfl

theorem markStep_state_steps (env : Env) (st : St) (s : String) (v : RunStatus) :
    (Res.state (markStep env st s v)).run.steps = setStep st.run.steps s v := by
  unfold markStep trySave
  dsimp only
  cases env.saveFail st.saveCount <;> rfl

theorem markStep_state_events (env : Env) (st : St) (s : String) (v : RunStatus) :
    (Res.state (markStep env st s v)).events = st.events ++ [(s, v)] := by
  unfold markStep trySave
  dsimp only
  cases env.saveFail st.saveCount <;> rfl

theorem markStep_state_calls (env : Env) (st : St) (s : String) (v : RunStatus) :
    (Res.state (markStep env st s v)).calls = st.calls := by
  unfold markStep trySave
  dsimp only
  cases env.saveFail st.saveCount <;> rfl

theorem markStep_state_run_id (env : Env) (st : St) (s : String) (v : RunStatus) :
    (Res.state (markStep env st s v)).run.run_id = st.run.run_id := by
  unfold markStep trySave
  dsimp only
  cases env.saveFail st.saveCount <;> rfl

theorem markStep_ok_of_savesOk (env : Env) (h : savesOk env) (st : St) (s : String)
    (v : RunStatus) : markStep env st s v = .ok () (Res.state (markStep env st s v)) := by
  unfold markStep
  rw [trySave_ok env h]
  rfl

theorem callStep_state_run {α : Type} (st : St) (c : String) (r : Except String α) :
    (Res.state (callStep st c r)).run = st.run := by
  unfold callStep
  cases r <;> rfl

theorem callStep_state_events {α : Type} (st : St) (c : String) (r : Except String α) :
    (Res.state (callStep st c r)).events = st.events := by
  unfold callStep
  cases r <;> rfl

theorem callStep_state_calls {α : Type} (st : St) (c : String) (r : Except String α) :
    (Res.state (callStep st c r)).calls = st.calls ++ [c] := by
  unfold callStep
  cases r <;> rfl

theorem lookupStep_setStep_self (l : List (String × RunStatus)) (s : String)
    (v : RunStatus) : lookupStep (setStep l s v) s = some v := by
  induction l with
  | nil => simp [setStep, lookupStep]
  | cons p rest ih =>
    rcases p with ⟨k, u⟩
    by_cases hk : k = s
    · simp [setStep, lookupStep, hk]
    · simp [setStep, lookupStep, hk, ih]

theorem orchestrateBody_ok_facts (env : Env) (req : OrchestrateRequest) (st : St)
    (resp : OrchestrateResponse) (stB : St)
    (h : orchestrateBody env req st = .ok resp stB) :
    resp.status = .succeeded ∧ stB.run.status = .succeeded ∧
      resp.run_id = stB.run.run_id ∧ resp.error_message = none := by
  unfold orchestrateBody at h
  repeat' split at h
  all_goals try (cases h)
  dsimp only at h
  split at h
  · cases h
  · cases h
    rename_i heq9
    have h2 := congrArg (fun p => p.2.run.status) heq9
    dsimp only at h2
    rw [trySave_snd_run] at h2
    dsimp only at h2
    exact ⟨h2.symm, h2.symm, rfl, rfl⟩

/-- Environment whose collaborators all succeed trivially but whose
persistence layer raises on every save. -/
def envSaveCrash : Env :=
  { runId := "r1"
    parse := fun _ => .ok .nonDict
    airtable := fun _ => .ok []
    apollo := fun _ _ => .ok []
    exportCsv := fun _ => .ok "exports/investors.csv"
    calendar := fun _ => .ok []
    draft := fun _ _ _ => .ok { subject := "s", body_text := "b" }
    createProject := fun _ _ => .ok none
    saveFail := fun _ => some "disk full" }

/-- The same environment with persistence healthy. -/
def envAllOk : Env := { envSaveCrash with saveFail := fun _ => none }

/-- A concrete request. -/
def reqDefault : OrchestrateRequest := { query := "find fintech investors" }

/-- C2 counterexample: when the very first `_save_run` call (inside
`_new_run`, before the `try` block) raises, the exception escapes
`orchestrate` and the caller receives a raised exception instead of a
structured response — run-record creation failures are not converted. -/
theorem orchestrate_raises_on_create_failure :
    orchestrate envSaveCrash reqDefault = Except.error "disk full" := rfl

/-- C2 amended: whenever run-record persistence itself never raises, every
request yields a structured response — any step failure is caught and
converted, and no exception escapes `orchestrate`.  (Exceptions raised by
`_save_run` during run creation, during the pre-try status save, or inside
the `except` handler do escape, as the counterexample shows.) -/
theorem orchestrate_total (env : Env) (req : OrchestrateRequest) (h : savesOk env) :
    ∃ p, orchestrate env req = Except.ok p := by
  unfold orchestrate
  simp only [trySave_ok env h]
  cases horch : orchestrateBody env req _ with
  | ok resp st3 => exact ⟨_, rfl⟩
  | err m st3 =>
    simp only [trySave_ok env h]
    exact ⟨_, rfl⟩

/-- Witness for C2's amended theorem at a concrete healthy environment. -/
theorem orchestrate_total_witness :
    savesOk envAllOk ∧ ∃ p, orchestrate envAllOk reqDefault = Except.ok p :=
  ⟨fun _ => rfl, orchestrate_total envAllOk reqDefault (fun _ => rfl)⟩

/-! ### Step-order and step-status invariants -/

theorem trySave_snd_events (env : Env) (st : St) : ((trySave env st).2).events = st.events := by
  unfold trySave
  cases env.saveFail st.saveCount <;> rfl

theorem trySave_snd_calls (env : Env) (st : St) : ((trySave env st).2).calls = st.calls := by
  unfold trySave
  cases env.saveFail st.saveCount <;> rfl

theorem state_of_ok {α : Type} {r : Res α} {a : α} {st2 : St} (h : r = .ok a st2) :
    Res.state r = st2 := by
  rw [h]
  rfl

theorem state_of_err {α : Type} {r : Res α} {m : String} {st2 : St} (h : r = .err m st2) :
    Res.state r = st2 := by
  rw [h]
  rfl

/-- Position of a step name in the fixed execution order. -/
def stepIdx (s : String) : Nat :=
  if s = "parse_query" then 0
  else if s = "fetch_airtable" then 1
  else if s = "fetch_apollo" then 2
  else if s = "merge_filter" then 3
  else if s = "export_csv" then 4
  else if s = "calendar" then 5
  else if s = "email_draft" then 6
  else if s = "create_project" then 7
  else 8

/-- Step names that a run may ever mark, with the request options gating
the optional ones. -/
def allowedStepName (req : OrchestrateRequest) (s : String) : Prop :=
  s = "parse_query" ∨ s = "fetch_airtable" ∨ s = "fetch_apollo" ∨ s = "merge_filter" ∨
  s = "export_csv" ∨ (s = "calendar" ∧ req.options.include_calendar = true) ∨
  (s = "email_draft" ∧ req.options.include_email_draft = true) ∨
  (s = "create_project" ∧ req.options.create_project = true ∧ req.options.dry_run = false)

/-- Invariant carried through the step sequence: mark events are ordered by
the fixed step order and bounded by the index `j` of the last stage that
ran, every event names an allowed step and never carries status failed, no
persisted step status is failed, and the run id never changes. -/
def GoodSt (env : Env) (req : OrchestrateRequest) (j : Nat) (st : St) : Prop :=
  List.Pairwise (fun a b => stepIdx a.1 ≤ stepIdx b.1) st.events ∧
  (∀ e ∈ st.events, (allowedStepName req e.1 ∧ e.2 ≠ RunStatus.failed) ∧ stepIdx e.1 ≤ j) ∧
  (∀ s v, lookupStep st.run.steps s = some v → v ≠ RunStatus.failed) ∧
  st.run.run_id = env.runId

theorem goodSt_mono (env : Env) (req : OrchestrateRequest) {j k : Nat} (hjk : j ≤ k)
    {st : St} (h : GoodSt env req j st) : GoodSt env req k st := by
  obtain ⟨h1, h2, h3, h4⟩ := h
  exact ⟨h1, fun e he => ⟨(h2 e he).1, le_trans (h2 e he).2 hjk⟩, h3, h4⟩

theorem lookupStep_setStep (l : List (String × RunStatus)) (s : String) (v : RunStatus)
    (s2 : String) :
    lookupStep (setStep l s v) s2 = if s2 = s then some v else lookupStep l s2 := by
  induction l with
  | nil =>
    by_cases h2 : s2 = s
    · subst h2
      simp [setStep, lookupStep]
    · have h2s : ¬(s = s2) := fun h => h2 h.symm
      simp [setStep, lookupStep, h2, h2s]
  | cons p rest ih =>
    rcases p with ⟨k, u⟩
    by_cases hk : k = s
    · subst hk
      by_cases h2 : s2 = k
      · subst h2
        simp [setStep, lookupStep]
      · have h2s : ¬(k = s2) := fun h => h2 h.symm
        simp [setStep, lookupStep, h2, h2s]
    · by_cases h2 : k = s2
      · subst h2
        simp [setStep, lookupStep, hk]
      · simp [setStep, lookupStep, hk, h2, ih]

theorem goodSt_markStep (env : Env) (req : OrchestrateRequest) (st : St) (s : String)
    (v : RunStatus) (j k : Nat) (hst : GoodSt env req k st) (hkj : k ≤ j)
    (hs : stepIdx s = j) (hall : allowedStepName req s) (hv : v ≠ RunStatus.failed) :
    GoodSt env req j (Res.state (markStep env st s v)) := by
  obtain ⟨hpw, hev, hlk, hid⟩ := hst
  refine ⟨?_, ?_, ?_, ?_⟩
  · rw [markStep_state_events, List.pairwise_append]
    refine ⟨hpw, List.pairwise_singleton _ _, ?_⟩
    intro a ha b hb
    rcases List.mem_singleton.mp hb with rfl
    calc stepIdx a.1 ≤ k := (hev a ha).2
    _ ≤ j := hkj
    _ = stepIdx s := hs.symm
  · intro e he
    rw [markStep_state_events] at he
    rcases List.mem_append.mp he with he | he
    · exact ⟨(hev e he).1, le_trans (hev e he).2 hkj⟩
    · rcases List.mem_singleton.mp he with rfl
      exact ⟨⟨hall, hv⟩, le_of_eq hs⟩
  · intro s2 v2 hl2
    rw [markStep_state_steps, lookupStep_setStep] at hl2
    by_cases h2 : s2 = s
    · rw [if_pos h2] at hl2
      cases hl2
      exact hv
    · rw [if_neg h2] at hl2
      exact hlk s2 v2 hl2
  · rw [markStep_state_run_id]
    exact hid

theorem goodSt_callStep {α : Type} (env : Env) (req : OrchestrateRequest) (j : Nat)
    (st : St) (c : String) (r2 : Except String α) (hst : GoodSt env req j st) :
    GoodSt env req j (Res.state (callStep st c r2)) := by
  obtain ⟨hpw, hev, hlk, hid⟩ := hst
  refine ⟨?_, ?_, ?_, ?_⟩
  · rw [callStep_state_events]; exact hpw
  · rw [callStep_state_events]; exact hev
  · rw [callStep_state_run]; exact hlk
  · rw [callStep_state_run]; exact hid

theorem goodSt_stageParse (env : Env) (req : OrchestrateRequest) (st : St) (k : Nat)
    (r : Res ParsedQuery) (hr : stageParse env req st = r) (hk : k ≤ 0)
    (h0 : GoodSt env req k st) : GoodSt env req 0 r.state := by
  unfold stageParse at hr
  cases hm1 : markStep env st "parse_query" .running with
  | err m st1 =>
    rw [hm1] at hr
    dsimp only at hr
    subst hr
    exact state_of_err hm1 ▸
      goodSt_markStep env req st "parse_query" .running 0 k h0 hk rfl (Or.inl rfl) (by decide)
  | ok u st1 =>
    rw [hm1] at hr
    dsimp only at hr
    have g1 : GoodSt env req 0 st1 := state_of_ok hm1 ▸
      goodSt_markStep env req st "parse_query" .running 0 k h0 hk rfl (Or.inl rfl) (by decide)
    cases hc : callStep st1 "parse" (env.parse req.query) with
    | err m st2 =>
      rw [hc] at hr
      dsimp only at hr
      subst hr
      exact state_of_err hc ▸ goodSt_callStep env req 0 st1 "parse" _ g1
    | ok pr st2 =>
      rw [hc] at hr
      dsimp only at hr
      have g2 : GoodSt env req 0 st2 := state_of_ok hc ▸
        goodSt_callStep env req 0 st1 "parse" _ g1
      cases pr with
      | errorDict emsg =>
        dsimp only at hr
        subst hr
        exact g2
      | okDict pq =>
        dsimp only at hr
        cases hm2 : markStep env st2 "parse_query" .succeeded with
        | err m st3 =>
          rw [hm2] at hr
          dsimp only at hr
          subst hr
          exact state_of_err hm2 ▸ goodSt_markStep env req st2 "parse_query" .succeeded 0 0 g2
            (le_refl 0) rfl (Or.inl rfl) (by decide)
        | ok u2 st3 =>
          rw [hm2] at hr
          dsimp only at hr
          subst hr
          exact state_of_ok hm2 ▸ goodSt_markStep env req st2 "parse_query" .succeeded 0 0 g2
            (le_refl 0) rfl (Or.inl rfl) (by decide)
      | nonDict =>
        dsimp only at hr
        cases hm2 : markStep env st2 "parse_query" .succeeded with
        | err m st3 =>
          rw [hm2] at hr
          dsimp only at hr
          subst hr
          exact state_of_err hm2 ▸ goodSt_markStep env req st2 "parse_query" .succeeded 0 0 g2
            (le_refl 0) rfl (Or.inl rfl) (by decide)
        | ok u2 st3 =>
          rw [hm2] at hr
          dsimp only at hr
          subst hr
          exact state_of_ok hm2 ▸ goodSt_markStep env req st2 "parse_query" .succeeded 0 0 g2
            (le_refl 0) rfl (Or.inl rfl) (by decide)

theorem goodSt_stageAirtable (env : Env) (req : OrchestrateRequest) (parsed : ParsedQuery)
    (st : St) (k : Nat) (r : Res (List Investor)) (hr : stageAirtable env parsed st = r)
    (hk : k ≤ 1) (h0 : GoodSt env req k st) : GoodSt env req 1 r.state := by
  unfold stageAirtable at hr
  cases hm1 : markStep env st "fetch_airtable" .running with
  | err m st1 =>
    rw [hm1] at hr
    dsimp only at hr
    subst hr
    exact state_of_err hm1 ▸ goodSt_markStep env req st "fetch_airtable" .running 1 k h0 hk rfl (Or.inr (Or.inl rfl)) (by decide)
  | ok u st1 =>
    rw [hm1] at hr
    dsimp only at hr
    have g1 : GoodSt env req 1 st1 := state_of_ok hm1 ▸ goodSt_markStep env req st "fetch_airtable" .running 1 k h0 hk rfl (Or.inr (Or.inl rfl)) (by decide)
    cases hc : callStep st1 "airtable" (env.airtable parsed.source_project) with
    | err m st2 =>
      rw [hc] at hr
      dsimp only at hr
      subst hr
      exact state_of_err hc ▸ goodSt_callStep env req 1 st1 "airtable" _ g1
    | ok val st2 =>
      rw [hc] at hr
      dsimp only at hr
      have g2 : GoodSt env req 1 st2 := state_of_ok hc ▸ goodSt_callStep env req 1 st1 "airtable" _ g1
      cases hm2 : markStep env st2 "fetch_airtable" .succeeded with
      | err m st3 =>
        rw [hm2] at hr
        dsimp only at hr
        subst hr
        exact state_of_err hm2 ▸ goodSt_markStep env req st2 "fetch_airtable" .succeeded 1 1 g2 (le_refl 1) rfl (Or.inr (Or.inl rfl)) (by decide)
      | ok u2 st3 =>
        rw [hm2] at hr
        dsimp only at hr
        subst hr
        exact state_of_ok hm2 ▸ goodSt_markStep env req st2 "fetch_airtable" .succeeded 1 1 g2 (le_refl 1) rfl (Or.inr (Or.inl rfl)) (by decide)

theorem goodSt_stageApollo (env : Env) (req : OrchestrateRequest) (parsed : ParsedQuery)
    (st : St) (k : Nat) (r : Res (List Investor)) (hr : stageApollo env req parsed st = r)
    (hk : k ≤ 2) (h0 : GoodSt env req k st) : GoodSt env req 2 r.state := by
  unfold stageApollo at hr
  by_cases hcrit : hasSearchCriteria parsed = true
  · rw [if_pos hcrit] at hr
    cases hm1 : markStep env st "fetch_apollo" .running with
    | err m st1 =>
      rw [hm1] at hr
      dsimp only at hr
      subst hr
      exact state_of_err hm1 ▸ goodSt_markStep env req st "fetch_apollo" .running 2 k h0 hk rfl (Or.inr (Or.inr (Or.inl rfl))) (by decide)
    | ok u st1 =>
      rw [hm1] at hr
      dsimp only at hr
      have g1 : GoodSt env req 2 st1 := state_of_ok hm1 ▸ goodSt_markStep env req st "fetch_apollo" .running 2 k h0 hk rfl (Or.inr (Or.inr (Or.inl rfl))) (by decide)
      cases hc : callStep st1 "apollo" (env.apollo (mkCompanyQuery parsed) req.options.max_results) with
      | err m st2 =>
        rw [hc] at hr
        dsimp only at hr
        subst hr
        exact state_of_err hc ▸ goodSt_callStep env req 2 st1 "apollo" _ g1
      | ok val st2 =>
        rw [hc] at hr
        dsimp only at hr
        have g2 : GoodSt env req 2 st2 := state_of_ok hc ▸ goodSt_callStep env req 2 st1 "apollo" _ g1
        cases hm2 : markStep env st2 "fetch_apollo" .succeeded with
        | err m st3 =>
          rw [hm2] at hr
          dsimp only at hr
          subst hr
          exact state_of_err hm2 ▸ goodSt_markStep env req st2 "fetch_apollo" .succeeded 2 2 g2 (le_refl 2) rfl (Or.inr (Or.inr (Or.inl rfl))) (by decide)
        | ok u2 st3 =>
          rw [hm2] at hr
          dsimp only at hr
          subst hr
          exact state_of_ok hm2 ▸ goodSt_markStep env req st2 "fetch_apollo" .succeeded 2 2 g2 (le_refl 2) rfl (Or.inr (Or.inr (Or.inl rfl))) (by decide)
  · rw [if_neg hcrit] at hr
    cases hm1 : markStep env st "fetch_apollo" .succeeded with
    | err m st1 =>
      rw [hm1] at hr
      dsimp only at hr
      subst hr
      exact state_of_err hm1 ▸ goodSt_markStep env req st "fetch_apollo" .succeeded 2 k h0 hk rfl (Or.inr (Or.inr (Or.inl rfl))) (by decide)
    | ok u st1 =>
      rw [hm1] at hr
      dsimp only at hr
      subst hr
      exact state_of_ok hm1 ▸ goodSt_markStep env req st "fetch_apollo" .succeeded 2 k h0 hk rfl (Or.inr (Or.inr (Or.inl rfl))) (by decide)

theorem goodSt_stageMergeFilter (env : Env) (req : OrchestrateRequest) (parsed : ParsedQuery)
    (air apo : List Investor) (st : St) (k : Nat) (r : Res (List Investor))
    (hr : stageMergeFilter env parsed air apo st = r) (hk : k ≤ 3) (h0 : GoodSt env req k st) : GoodSt env req 3 r.state := by
  unfold stageMergeFilter at hr
  cases hm1 : markStep env st "merge_filter" .running with
  | err m st1 =>
    rw [hm1] at hr
    dsimp only at hr
    subst hr
    exact state_of_err hm1 ▸ goodSt_markStep env req st "merge_filter" .running 3 k h0 hk rfl (Or.inr (Or.inr (Or.inr (Or.inl rfl)))) (by decide)
  | ok u st1 =>
    rw [hm1] at hr
    dsimp only at hr
    have g1 : GoodSt env req 3 st1 := state_of_ok hm1 ▸ goodSt_markStep env req st "merge_filter" .running 3 k h0 hk rfl (Or.inr (Or.inr (Or.inr (Or.inl rfl)))) (by decide)
    cases hm2 : markStep env st1 "merge_filter" .succeeded with
    | err m st2 =>
      rw [hm2] at hr
      dsimp only at hr
      subst hr
      exact state_of_err hm2 ▸ goodSt_markStep env req st1 "merge_filter" .succeeded 3 3 g1 (le_refl 3) rfl (Or.inr (Or.inr (Or.inr (Or.inl rfl)))) (by decide)
    | ok u2 st2 =>
      rw [hm2] at hr
      dsimp only at hr
      subst hr
      exact state_of_ok hm2 ▸ goodSt_markStep env req st1 "merge_filter" .succeeded 3 3 g1 (le_refl 3) rfl (Or.inr (Or.inr (Or.inr (Or.inl rfl)))) (by decide)

theorem goodSt_stageExport (env : Env) (req : OrchestrateRequest) (invs : List Investor)
    (st : St) (k : Nat) (r : Res String) (hr : stageExport env invs st = r)
    (hk : k ≤ 4) (h0 : GoodSt env req k st) : GoodSt env req 4 r.state := by
  unfold stageExport at hr
  cases hm1 : markStep env st "export_csv" .running with
  | err m st1 =>
    rw [hm1] at hr
    dsimp only at hr
    subst hr
    exact state_of_err hm1 ▸ goodSt_markStep env req st "export_csv" .running 4 k h0 hk rfl (Or.inr (Or.inr (Or.inr (Or.inr (Or.inl rfl))))) (by decide)
  | ok u st1 =>
    rw [hm1] at hr
    dsimp only at hr
    have g1 : GoodSt env req 4 st1 := state_of_ok hm1 ▸ goodSt_markStep env req st "export_csv" .running 4 k h0 hk rfl (Or.inr (Or.inr (Or.inr (Or.inr (Or.inl rfl))))) (by decide)
    cases hc : callStep st1 "export" (env.exportCsv invs) with
    | err m st2 =>
      rw [hc] at hr
      dsimp only at hr
      subst hr
      exact state_of_err hc ▸ goodSt_callStep env req 4 st1 "export" _ g1
    | ok val st2 =>
      rw [hc] at hr
      dsimp only at hr
      have g2 : GoodSt env req 4 st2 := state_of_ok hc ▸ goodSt_callStep env req 4 st1 "export" _ g1
      cases hm2 : markStep env st2 "export_csv" .succeeded with
      | err m st3 =>
        rw [hm2] at hr
        dsimp only at hr
        subst hr
        exact state_of_err hm2 ▸ goodSt_markStep env req st2 "export_csv" .succeeded 4 4 g2 (le_refl 4) rfl (Or.inr (Or.inr (Or.inr (Or.inr (Or.inl rfl))))) (by decide)
      | ok u2 st3 =>
        rw [hm2] at hr
        dsimp only at hr
        subst hr
        exact state_of_ok hm2 ▸ goodSt_markStep env req st2 "export_csv" .succeeded 4 4 g2 (le_refl 4) rfl (Or.inr (Or.inr (Or.inr (Or.inr (Or.inl rfl))))) (by decide)

theorem goodSt_stageCalendar (env : Env) (req : OrchestrateRequest) (st : St) (k : Nat)
    (r : Res (Option (List AvailabilitySlot))) (hr : stageCalendar env req st = r)
    (hk : k ≤ 5) (h0 : GoodSt env req k st) : GoodSt env req 5 r.state := by
  unfold stageCalendar at hr
  by_cases hinc : req.options.include_calendar = true
  · rw [if_pos hinc] at hr
    cases hm1 : markStep env st "calendar" .running with
    | err m st1 =>
      rw [hm1] at hr
      dsimp only at hr
      subst hr
      exact state_of_err hm1 ▸ goodSt_markStep env req st "calendar" .running 5 k h0 hk rfl (Or.inr (Or.inr (Or.inr (Or.inr (Or.inr (Or.inl ⟨rfl, hinc⟩)))))) (by decide)
    | ok u st1 =>
      rw [hm1] at hr
      dsimp only at hr
      have g1 : GoodSt env req 5 st1 := state_of_ok hm1 ▸ goodSt_markStep env req st "calendar" .running 5 k h0 hk rfl (Or.inr (Or.inr (Or.inr (Or.inr (Or.inr (Or.inl ⟨rfl, hinc⟩)))))) (by decide)
      cases hc : callStep st1 "calendar" (env.calendar ()) with
      | err m st2 =>
        rw [hc] at hr
        dsimp only at hr
        subst hr
        exact state_of_err hc ▸ goodSt_callStep env req 5 st1 "calendar" _ g1
      | ok val st2 =>
        rw [hc] at hr
        dsimp only at hr
        have g2 : GoodSt env req 5 st2 := state_of_ok hc ▸ goodSt_callStep env req 5 st1 "calendar" _ g1
        cases hm2 : markStep env st2 "calendar" .succeeded with
        | err m st3 =>
          rw [hm2] at hr
          dsimp only at hr
          subst hr
          exact state_of_err hm2 ▸ goodSt_markStep env req st2 "calendar" .succeeded 5 5 g2 (le_refl 5) rfl (Or.inr (Or.inr (Or.inr (Or.inr (Or.inr (Or.inl ⟨rfl, hinc⟩)))))) (by decide)
        | ok u2 st3 =>
          rw [hm2] at hr
          dsimp only at hr
          subst hr
          exact state_of_ok hm2 ▸ goodSt_markStep env req st2 "calendar" .succeeded 5 5 g2 (le_refl 5) rfl (Or.inr (Or.inr (Or.inr (Or.inr (Or.inr (Or.inl ⟨rfl, hinc⟩)))))) (by decide)
  · rw [if_neg hinc] at hr
    subst hr
    exact goodSt_mono env req hk h0

theorem goodSt_stageEmail (env : Env) (req : OrchestrateRequest) (invs : List Investor)
    (avail : Option (List AvailabilitySlot)) (parsed : ParsedQuery) (st : St) (k : Nat)
    (r : Res (Option EmailDraft)) (hr : stageEmail env req invs avail parsed st = r)
    (hk : k ≤ 6) (h0 : GoodSt env req k st) : GoodSt env req 6 r.state := by
  unfold stageEmail at hr
  by_cases hinc : req.options.include_email_draft = true
  · rw [if_pos hinc] at hr
    cases hm1 : markStep env st "email_draft" .running with
    | err m st1 =>
      rw [hm1] at hr
      dsimp only at hr
      subst hr
      exact state_of_err hm1 ▸ goodSt_markStep env req st "email_draft" .running 6 k h0 hk rfl (Or.inr (Or.inr (Or.inr (Or.inr (Or.inr (Or.inr (Or.inl ⟨rfl, hinc⟩))))))) (by decide)
    | ok u st1 =>
      rw [hm1] at hr
      dsimp only at hr
      have g1 : GoodSt env req 6 st1 := state_of_ok hm1 ▸ goodSt_markStep env req st "email_draft" .running 6 k h0 hk rfl (Or.inr (Or.inr (Or.inr (Or.inr (Or.inr (Or.inr (Or.inl ⟨rfl, hinc⟩))))))) (by decide)
      cases hc : callStep st1 "draft" (env.draft invs avail parsed) with
      | err m st2 =>
        rw [hc] at hr
        dsimp only at hr
        subst hr
        exact state_of_err hc ▸ goodSt_callStep env req 6 st1 "draft" _ g1
      | ok val st2 =>
        rw [hc] at hr
        dsimp only at hr
        have g2 : GoodSt env req 6 st2 := state_of_ok hc ▸ goodSt_callStep env req 6 st1 "draft" _ g1
        cases hm2 : markStep env st2 "email_draft" .succeeded with
        | err m st3 =>
          rw [hm2] at hr
          dsimp only at hr
          subst hr
          exact state_of_err hm2 ▸ goodSt_markStep env req st2 "email_draft" .succeeded 6 6 g2 (le_refl 6) rfl (Or.inr (Or.inr (Or.inr (Or.inr (Or.inr (Or.inr (Or.inl ⟨rfl, hinc⟩))))))) (by decide)
        | ok u2 st3 =>
          rw [hm2] at hr
          dsimp only at hr
          subst hr
          exact state_of_ok hm2 ▸ goodSt_markStep env req st2 "email_draft" .succeeded 6 6 g2 (le_refl 6) rfl (Or.inr (Or.inr (Or.inr (Or.inr (Or.inr (Or.inr (Or.inl ⟨rfl, hinc⟩))))))) (by decide)
  · rw [if_neg hinc] at hr
    subst hr
    exact goodSt_mono env req hk h0

theorem goodSt_stageCreateProject (env : Env) (req : OrchestrateRequest) (parsed : ParsedQuery)
    (invs : List Investor) (st : St) (k : Nat) (r : Res (Option String))
    (hr : stageCreateProject env req parsed invs st = r) (hk : k ≤ 7) (h0 : GoodSt env req k st) : GoodSt env req 7 r.state := by
  unfold stageCreateProject at hr
  by_cases hcond : (req.options.create_project && !req.options.dry_run && strTruthy parsed.new_project) = true
  · rw [if_pos hcond] at hr
    have hsplit := hcond
    simp only [Bool.and_eq_true, Bool.not_eq_true'] at hsplit
    obtain ⟨⟨hcp, hdr⟩, hnp⟩ := hsplit
    cases hm1 : markStep env st "create_project" .running with
    | err m st1 =>
      rw [hm1] at hr
      dsimp only at hr
      subst hr
      exact state_of_err hm1 ▸ goodSt_markStep env req st "create_project" .running 7 k h0 hk rfl (Or.inr (Or.inr (Or.inr (Or.inr (Or.inr (Or.inr (Or.inr ⟨rfl, hcp, hdr⟩))))))) (by decide)
    | ok u st1 =>
      rw [hm1] at hr
      dsimp only at hr
      have g1 : GoodSt env req 7 st1 := state_of_ok hm1 ▸ goodSt_markStep env req st "create_project" .running 7 k h0 hk rfl (Or.inr (Or.inr (Or.inr (Or.inr (Or.inr (Or.inr (Or.inr ⟨rfl, hcp, hdr⟩))))))) (by decide)
      cases hc : callStep st1 "create_project" (env.createProject (parsed.new_project.getD "") invs) with
      | err m st2 =>
        rw [hc] at hr
        dsimp only at hr
        subst hr
        exact state_of_err hc ▸ goodSt_callStep env req 7 st1 "create_project" _ g1
      | ok val st2 =>
        rw [hc] at hr
        dsimp only at hr
        have g2 : GoodSt env req 7 st2 := state_of_ok hc ▸ goodSt_callStep env req 7 st1 "create_project" _ g1
        cases hm2 : markStep env st2 "create_project" .succeeded with
        | err m st3 =>
          rw [hm2] at hr
          dsimp only at hr
          subst hr
          exact state_of_err hm2 ▸ goodSt_markStep env req st2 "create_project" .succeeded 7 7 g2 (le_refl 7) rfl (Or.inr (Or.inr (Or.inr (Or.inr (Or.inr (Or.inr (Or.inr ⟨rfl, hcp, hdr⟩))))))) (by decide)
        | ok u2 st3 =>
          rw [hm2] at hr
          dsimp only at hr
          subst hr
          exact state_of_ok hm2 ▸ goodSt_markStep env req st2 "create_project" .succeeded 7 7 g2 (le_refl 7) rfl (Or.inr (Or.inr (Or.inr (Or.inr (Or.inr (Or.inr (Or.inr ⟨rfl, hcp, hdr⟩))))))) (by decide)
  · rw [if_neg hcond] at hr
    subst hr
    exact goodSt_mono env req hk h0

theorem lookupStep_afterMark (env : Env) (st : St) (s : String) (st2 : St)
    (hrun : st2.run = (Res.state (markStep env st s RunStatus.running)).run) :
    lookupStep st2.run.steps s = some RunStatus.running := by
  rw [hrun, markStep_state_steps, lookupStep_setStep_self]

theorem stageParse_err_running (env : Env) (req : OrchestrateRequest) (st : St)
    (m : String) (st2 : St) (h : savesOk env) (hr : stageParse env req st = .err m st2) :
    ∃ s, lookupStep st2.run.steps s = some RunStatus.running := by
  unfold stageParse at hr
  rw [markStep_ok_of_savesOk env h] at hr
  dsimp only at hr
  cases hp : env.parse req.query with
  | error m2 =>
    rw [hp] at hr
    unfold callStep at hr
    dsimp only at hr
    cases hr
    exact ⟨"parse_query", lookupStep_afterMark env st "parse_query" _ rfl⟩
  | ok pr =>
    rw [hp] at hr
    unfold callStep at hr
    dsimp only at hr
    cases pr with
    | errorDict emsg =>
      dsimp only at hr
      cases hr
      exact ⟨"parse_query", lookupStep_afterMark env st "parse_query" _ rfl⟩
    | okDict pq =>
      dsimp only at hr
      rw [markStep_ok_of_savesOk env h] at hr
      dsimp only at hr
      cases hr
    | nonDict =>
      dsimp only at hr
      rw [markStep_ok_of_savesOk env h] at hr
      dsimp only at hr
      cases hr

theorem stageAirtable_err_running (env : Env) (parsed : ParsedQuery) (st : St)
    (m : String) (st2 : St) (h : savesOk env) (hr : stageAirtable env parsed st = .err m st2) :
    ∃ s, lookupStep st2.run.steps s = some RunStatus.running := by
  unfold stageAirtable at hr
  rw [markStep_ok_of_savesOk env h] at hr
  dsimp only at hr
  cases hp : env.airtable parsed.source_project with
  | error m2 =>
    rw [hp] at hr
    unfold callStep at hr
    dsimp only at hr
    cases hr
    exact ⟨"fetch_airtable", lookupStep_afterMark env st "fetch_airtable" _ rfl⟩
  | ok val =>
    rw [hp] at hr
    unfold callStep at hr
    dsimp only at hr
    rw [markStep_ok_of_savesOk env h] at hr
    dsimp only at hr
    cases hr

theorem stageApollo_err_running (env : Env) (req : OrchestrateRequest)
    (parsed : ParsedQuery) (st : St) (m : String) (st2 : St) (h : savesOk env)
    (hr : stageApollo env req parsed st = .err m st2) :
    ∃ s, lookupStep st2.run.steps s = some RunStatus.running := by
  unfold stageApollo at hr
  by_cases hcrit : hasSearchCriteria parsed = true
  · rw [if_pos hcrit] at hr
    rw [markStep_ok_of_savesOk env h] at hr
    dsimp only at hr
    cases hp : env.apollo (mkCompanyQuery parsed) req.options.max_results with
    | error m2 =>
      rw [hp] at hr
      unfold callStep at hr
      dsimp only at hr
      cases hr
      exact ⟨"fetch_apollo", lookupStep_afterMark env st "fetch_apollo" _ rfl⟩
    | ok val =>
      rw [hp] at hr
      unfold callStep at hr
      dsimp only at hr
      rw [markStep_ok_of_savesOk env h] at hr
      dsimp only at hr
      cases hr
  · rw [if_neg hcrit] at hr
    rw [markStep_ok_of_savesOk env h] at hr
    dsimp only at hr
    cases hr

theorem stageMergeFilter_err_running (env : Env) (parsed : ParsedQuery)
    (air apo : List Investor) (st : St) (m : String) (st2 : St) (h : savesOk env)
    (hr : stageMergeFilter env parsed air apo st = .err m st2) :
    ∃ s, lookupStep st2.run.steps s = some RunStatus.running := by
  unfold stageMergeFilter at hr
  rw [markStep_ok_of_savesOk env h] at hr
  dsimp only at hr
  rw [markStep_ok_of_savesOk env h] at hr
  dsimp only at hr
  cases hr

theorem stageExport_err_running (env : Env) (invs : List Investor) (st : St)
    (m : String) (st2 : St) (h : savesOk env) (hr : stageExport env invs st = .err m st2) :
    ∃ s, lookupStep st2.run.steps s = some RunStatus.running := by
  unfold stageExport at hr
  rw [markStep_ok_of_savesOk env h] at hr
  dsimp only at hr
  cases hp : env.exportCsv invs with
  | error m2 =>
    rw [hp] at hr
    unfold callStep at hr
    dsimp only at hr
    cases hr
    exact ⟨"export_csv", lookupStep_afterMark env st "export_csv" _ rfl⟩
  | ok val =>
    rw [hp] at hr
    unfold callStep at hr
    dsimp only at hr
    rw [markStep_ok_of_savesOk env h] at hr
    dsimp only at hr
    cases hr

theorem stageCalendar_err_running (env : Env) (req : OrchestrateRequest) (st : St)
    (m : String) (st2 : St) (h : savesOk env) (hr : stageCalendar env req st = .err m st2) :
    ∃ s, lookupStep st2.run.steps s = some RunStatus.running := by
  unfold stageCalendar at hr
  by_cases hinc : req.options.include_calendar = true
  · rw [if_pos hinc] at hr
    rw [markStep_ok_of_savesOk env h] at hr
    dsimp only at hr
    cases hp : env.calendar () with
    | error m2 =>
      rw [hp] at hr
      unfold callStep at hr
      dsimp only at hr
      cases hr
      exact ⟨"calendar", lookupStep_afterMark env st "calendar" _ rfl⟩
    | ok val =>
      rw [hp] at hr
      unfold callStep at hr
      dsimp only at hr
      rw [markStep_ok_of_savesOk env h] at hr
      dsimp only at hr
      cases hr
  · rw [if_neg hinc] at hr
    cases hr

theorem stageEmail_err_running (env : Env) (req : OrchestrateRequest)
    (invs : List Investor) (avail : Option (List AvailabilitySlot)) (parsed : ParsedQuery)
    (st : St) (m : String) (st2 : St) (h : savesOk env)
    (hr : stageEmail env req invs avail parsed st = .err m st2) :
    ∃ s, lookupStep st2.run.steps s = some RunStatus.running := by
  unfold stageEmail at hr
  by_cases hinc : req.options.include_email_draft = true
  · rw [if_pos hinc] at hr
    rw [markStep_ok_of_savesOk env h] at hr
    dsimp only at hr
    cases hp : env.draft invs avail parsed with
    | error m2 =>
      rw [hp] at hr
      unfold callStep at hr
      dsimp only at hr
      cases hr
      exact ⟨"email_draft", lookupStep_afterMark env st "email_draft" _ rfl⟩
    | ok val =>
      rw [hp] at hr
      unfold callStep at hr
      dsimp only at hr
      rw [markStep_ok_of_savesOk env h] at hr
      dsimp only at hr
      cases hr
  · rw [if_neg hinc] at hr
    cases hr

theorem stageCreateProject_err_running (env : Env) (req : OrchestrateRequest)
    (parsed : ParsedQuery) (invs : List Investor) (st : St) (m : String) (st2 : St)
    (h : savesOk env) (hr : stageCreateProject env req parsed invs st = .err m st2) :
    ∃ s, lookupStep st2.run.steps s = some RunStatus.running := by
  unfold stageCreateProject at hr
  by_cases hcond : (req.options.create_project && !req.options.dry_run && strTruthy parsed.new_project) = true
  · rw [if_pos hcond] at hr
    rw [markStep_ok_of_savesOk env h] at hr
    dsimp only at hr
    cases hp : env.createProject (parsed.new_project.getD "") invs with
    | error m2 =>
      rw [hp] at hr
      unfold callStep at hr
      dsimp only at hr
      cases hr
      exact ⟨"create_project", lookupStep_afterMark env st "create_project" _ rfl⟩
    | ok val =>
      rw [hp] at hr
      unfold callStep at hr
      dsimp only at hr
      rw [markStep_ok_of_savesOk env h] at hr
      dsimp only at hr
      cases hr
  · rw [if_neg hcond] at hr
    cases hr

theorem goodSt_finalSave (env : Env) (req : OrchestrateRequest) (j : Nat) (st8 : St)
    (run9 : OrchestrateRun) (clk : Nat) (o : Option String) (st9 : St)
    (heq : trySave env { st8 with run := run9, clock := clk } = (o, st9))
    (hrun_steps : run9.steps = st8.run.steps)
    (hrun_id : run9.run_id = st8.run.run_id) (g : GoodSt env req j st8) :
    GoodSt env req j st9 := by
  obtain ⟨hpw, hev, hlk, hid⟩ := g
  have h2 := congrArg Prod.snd heq
  dsimp only at h2
  refine ⟨?_, ?_, ?_, ?_⟩
  · rw [← h2, trySave_snd_events]
    exact hpw
  · rw [← h2, trySave_snd_events]
    exact hev
  · rw [← h2, trySave_snd_run]
    intro s v hl
    refine hlk s v ?_
    rw [show ({ st8 with run := run9, clock := clk } : St).run = run9 from rfl, hrun_steps] at hl
    exact hl
  · rw [← h2, trySave_snd_run]
    rw [show ({ st8 with run := run9, clock := clk } : St).run = run9 from rfl, hrun_id]
    exact hid

theorem orchestrateBody_invariants (env : Env) (req : OrchestrateRequest) (st0 : St)
    (r : Res OrchestrateResponse) (hr : orchestrateBody env req st0 = r)
    (h0 : GoodSt env req 0 st0) :
    GoodSt env req 7 r.state ∧
      (savesOk env → ∀ m2 stF, r = .err m2 stF →
        ∃ s, lookupStep stF.run.steps s = some RunStatus.running) := by
  unfold orchestrateBody at hr
  cases h1 : stageParse env req st0 with
  | err m st1 =>
    rw [h1] at hr
    dsimp only at hr
    subst hr
    refine ⟨goodSt_mono env req (by omega) (goodSt_stageParse env req st0 0 _ h1 (le_refl 0) h0), ?_⟩
    intro hs m2 stF he
    cases he
    exact stageParse_err_running env req st0 m st1 hs h1
  | ok parsed st1 =>
  rw [h1] at hr
  dsimp only at hr
  have g1 : GoodSt env req 0 st1 := goodSt_stageParse env req st0 0 _ h1 (le_refl 0) h0
  cases h2 : stageAirtable env parsed st1 with
  | err m st2 =>
    rw [h2] at hr
    dsimp only at hr
    subst hr
    refine ⟨goodSt_mono env req (by omega) (goodSt_stageAirtable env req parsed st1 0 _ h2 (by omega) g1), ?_⟩
    intro hs m2 stF he
    cases he
    exact stageAirtable_err_running env parsed st1 m st2 hs h2
  | ok air st2 =>
  rw [h2] at hr
  dsimp only at hr
  have g2 : GoodSt env req 1 st2 := goodSt_stageAirtable env req parsed st1 0 _ h2 (by omega) g1
  cases h3 : stageApollo env req parsed st2 with
  | err m st3 =>
    rw [h3] at hr
    dsimp only at hr
    subst hr
    refine ⟨goodSt_mono env req (by omega) (goodSt_stageApollo env req parsed st2 1 _ h3 (by omega) g2), ?_⟩
    intro hs m2 stF he
    cases he
    exact stageApollo_err_running env req parsed st2 m st3 hs h3
  | ok apo st3 =>
  rw [h3] at hr
  dsimp only at hr
  have g3 : GoodSt env req 2 st3 := goodSt_stageApollo env req parsed st2 1 _ h3 (by omega) g2
  cases h4 : stageMergeFilter env parsed air apo st3 with
  | err m st4 =>
    rw [h4] at hr
    dsimp only at hr
    subst hr
    refine ⟨goodSt_mono env req (by omega) (goodSt_stageMergeFilter env req parsed air apo st3 2 _ h4 (by omega) g3), ?_⟩
    intro hs m2 stF he
    cases he
    exact stageMergeFilter_err_running env parsed air apo st3 m st4 hs h4
  | ok invs st4 =>
  rw [h4] at hr
  dsimp only at hr
  have g4 : GoodSt env req 3 st4 := goodSt_stageMergeFilter env req parsed air apo st3 2 _ h4 (by omega) g3
  cases h5 : stageExport env invs st4 with
  | err m st5 =>
    rw [h5] at hr
    dsimp only at hr
    subst hr
    refine ⟨goodSt_mono env req (by omega) (goodSt_stageExport env req invs st4 3 _ h5 (by omega) g4), ?_⟩
    intro hs m2 stF he
    cases he
    exact stageExport_err_running env invs st4 m st5 hs h5
  | ok path st5 =>
  rw [h5] at hr
  dsimp only at hr
  have g5 : GoodSt env req 4 st5 := goodSt_stageExport env req invs st4 3 _ h5 (by omega) g4
  cases h6 : stageCalendar env req st5 with
  | err m st6 =>
    rw [h6] at hr
    dsimp only at hr
    subst hr
    refine ⟨goodSt_mono env req (by omega) (goodSt_stageCalendar env req st5 4 _ h6 (by omega) g5), ?_⟩
    intro hs m2 stF he
    cases he
    exact stageCalendar_err_running env req st5 m st6 hs h6
  | ok avail st6 =>
  rw [h6] at hr
  dsimp only at hr
  have g6 : GoodSt env req 5 st6 := goodSt_stageCalendar env req st5 4 _ h6 (by omega) g5
  cases h7 : stageEmail env req invs avail parsed st6 with
  | err m st7 =>
    rw [h7] at hr
    dsimp only at hr
    subst hr
    refine ⟨goodSt_mono env req (by omega) (goodSt_stageEmail env req invs avail parsed st6 5 _ h7 (by omega) g6), ?_⟩
    intro hs m2 stF he
    cases he
    exact stageEmail_err_running env req invs avail parsed st6 m st7 hs h7
  | ok mail st7 =>
  rw [h7] at hr
  dsimp only at hr
  have g7 : GoodSt env req 6 st7 := goodSt_stageEmail env req invs avail parsed st6 5 _ h7 (by omega) g6
  cases h8 : stageCreateProject env req parsed invs st7 with
  | err m st8 =>
    rw [h8] at hr
    dsimp only at hr
    subst hr
    refine ⟨goodSt_stageCreateProject env req parsed invs st7 6 _ h8 (by omega) g7, ?_⟩
    intro hs m2 stF he
    cases he
    exact stageCreateProject_err_running env req parsed invs st7 m st8 hs h8
  | ok pid st8 =>
  rw [h8] at hr
  dsimp only at hr
  have g8 : GoodSt env req 7 st8 := goodSt_stageCreateProject env req parsed invs st7 6 _ h8 (by omega) g7
  split at hr
  · rename_i m9 st9 heq9
    subst hr
    refine ⟨goodSt_finalSave env req 7 st8 _ _ _ _ heq9 rfl rfl g8, ?_⟩
    intro hs m2 stF he
    rw [trySave_ok env hs] at heq9
    simp at heq9
  · rename_i st9 heq9
    subst hr
    refine ⟨goodSt_finalSave env req 7 st8 _ _ _ _ heq9 rfl rfl g8, ?_⟩
    intro hs m2 stF he
    cases he

theorem goodSt_entry (env : Env) (req : OrchestrateRequest) (st1 st2 : St)
    (h1 : trySave env (initialState env) = (none, st1))
    (h2 : trySave env { st1 with run := { st1.run with status := .running } } = (none, st2)) :
    GoodSt env req 0 st2 := by
  have e1 := congrArg Prod.snd h1
  dsimp only at e1
  have e2 := congrArg Prod.snd h2
  dsimp only at e2
  have hrun1 : st1.run = (initialState env).run := by rw [← e1, trySave_snd_run]
  have hrun2 : st2.run = { st1.run with status := .running } := by rw [← e2, trySave_snd_run]
  have hev1 : st1.events = (initialState env).events := by rw [← e1, trySave_snd_events]
  have hev2 : st2.events = st1.events := by rw [← e2, trySave_snd_events]
  have hev : st2.events = [] := by
    rw [hev2, hev1]
    rfl
  have hsteps : st2.run.steps = [] := by
    rw [hrun2]
    show st1.run.steps = []
    rw [hrun1]
    rfl
  have hid : st2.run.run_id = env.runId := by
    rw [hrun2]
    show st1.run.run_id = env.runId
    rw [hrun1]
    rfl
  refine ⟨?_, ?_, ?_, ?_⟩
  · rw [hev]
    exact List.Pairwise.nil
  · rw [hev]
    intro e he
    exact absurd he (List.not_mem_nil e)
  · intro s v hl
    rw [hsteps] at hl
    exact Option.noConfusion hl
  · exact hid

/-- C9: across every run, a persisted step status is never `failed`: the
step that raises keeps its last recorded status `running` (the except
handler updates only the run-level status), so when the run-level status is
`failed` some step is still recorded as `running`. -/
theorem no_failed_step_status (env : Env) (req : OrchestrateRequest)
    (resp : OrchestrateResponse) (stT : St)
    (ho : orchestrate env req = Except.ok (resp, stT)) :
    (∀ s v, lookupStep stT.run.steps s = some v → v ≠ RunStatus.failed) ∧
      (savesOk env → resp.status = RunStatus.failed →
        ∃ s, lookupStep stT.run.steps s = some RunStatus.running) := by
  unfold orchestrate at ho
  repeat' split at ho
  all_goals try (cases ho)
  · rename_i p1 stA h1 p2 stB h2 q hbody
    have g0 := goodSt_entry env req stA stB h1 h2
    have hinv := orchestrateBody_invariants env req stB _ hbody g0
    refine ⟨fun s v hl => hinv.1.2.2.1 s v hl, ?_⟩
    intro hs hf
    have hfacts := orchestrateBody_ok_facts env req stB resp stT hbody
    rw [hfacts.1] at hf
    cases hf
  · rename_i p1 stA h1 p2 stB h2 q m3 st3 hbody
    have g0 := goodSt_entry env req stA stB h1 h2
    have hinv := orchestrateBody_invariants env req stB _ hbody g0
    dsimp only at ho
    split at ho
    · cases ho
    · cases ho
      rename_i heq9
      have hrun4 := congrArg Prod.snd heq9
      dsimp only at hrun4
      refine ⟨?_, ?_⟩
      · intro s v hl
        refine hinv.1.2.2.1 s v ?_
        rw [← hrun4, trySave_snd_run] at hl
        exact hl
      · intro hs _
        obtain ⟨s, hlk⟩ := hinv.2 hs m3 st3 rfl
        refine ⟨s, ?_⟩
        rw [← hrun4, trySave_snd_run]
        exact hlk

/-- Response and final state actually produced by a run, used to
instantiate the hypothesis-bearing theorems at concrete environments. -/
def orchOutcome (env : Env) (req : OrchestrateRequest) : OrchestrateResponse × St :=
  match orchestrate env req with
  | .ok p => p
  | .error m => ({ run_id := env.runId, status := .failed, error_message := some m }, initialState env)

/-- Environment with healthy persistence whose export step raises. -/
def envExportCrash : Env :=
  { envAllOk with
    parse := fun _ => .ok (.okDict { industry := some "fintech" }),
    exportCsv := fun _ => .error "disk full" }

/-- Witness for C9 at a concrete run whose export step raises. -/
theorem no_failed_step_status_witness :
    orchestrate envExportCrash reqDefault =
        Except.ok (orchOutcome envExportCrash reqDefault) ∧
      savesOk envExportCrash ∧
      (orchOutcome envExportCrash reqDefault).1.status = RunStatus.failed ∧
      ∃ s, lookupStep (orchOutcome envExportCrash reqDefault).2.run.steps s =
        some RunStatus.running := by
  refine ⟨rfl, fun _ => rfl, rfl, ?_⟩
  exact (no_failed_step_status envExportCrash reqDefault
    (orchOutcome envExportCrash reqDefault).1
    (orchOutcome envExportCrash reqDefault).2 rfl).2 (fun _ => rfl) rfl

/-- C7: a freshly created run has status pending, and when `orchestrate`
returns a structured response, the returned status — also the persisted
run's status — is exactly succeeded or failed, never pending or running. -/
theorem run_lifecycle (env : Env) (req : OrchestrateRequest)
    (resp : OrchestrateResponse) (stT : St)
    (ho : orchestrate env req = Except.ok (resp, stT)) :
    (initialState env).run.status = RunStatus.pending ∧
      (resp.status = RunStatus.succeeded ∨ resp.status = RunStatus.failed) ∧
      resp.status = stT.run.status := by
  refine ⟨rfl, ?_⟩
  unfold orchestrate at ho
  repeat' split at ho
  all_goals try (cases ho)
  · rename_i p1 stA h1 p2 stB h2 q hbody
    have hfacts := orchestrateBody_ok_facts env req stB resp stT hbody
    exact ⟨Or.inl hfacts.1, hfacts.1.trans hfacts.2.1.symm⟩
  · rename_i p1 stA h1 p2 stB h2 q m3 st3 hbody
    dsimp only at ho
    split at ho
    · cases ho
    · cases ho
      rename_i heq9
      have hrun4 := congrArg Prod.snd heq9
      dsimp only at hrun4
      constructor
      · right
        show _ = RunStatus.failed
        rw [← hrun4, trySave_snd_run]
      · rfl

/-- Witness for C7 at a concrete successful run. -/
theorem run_lifecycle_witness :
    orchestrate envAllOk reqDefault = Except.ok (orchOutcome envAllOk reqDefault) ∧
      ((initialState envAllOk).run.status = RunStatus.pending ∧
        ((orchOutcome envAllOk reqDefault).1.status = RunStatus.succeeded ∨
          (orchOutcome envAllOk reqDefault).1.status = RunStatus.failed) ∧
        (orchOutcome envAllOk reqDefault).1.status =
          (orchOutcome envAllOk reqDefault).2.run.status) :=
  ⟨rfl, run_lifecycle envAllOk reqDefault (orchOutcome envAllOk reqDefault).1
    (orchOutcome envAllOk reqDefault).2 rfl⟩

theorem stageApollo_skip (env : Env) (req : OrchestrateRequest) (pq : ParsedQuery)
    (st : St) (hc : hasSearchCriteria pq = false) :
    (Res.state (stageApollo env req pq st)).events =
        st.events ++ [("fetch_apollo", RunStatus.succeeded)] ∧
      (Res.state (stageApollo env req pq st)).calls = st.calls := by
  have hstate : Res.state (stageApollo env req pq st) =
      Res.state (markStep env st "fetch_apollo" .succeeded) := by
    unfold stageApollo
    rw [if_neg (by simp [hc])]
    cases markStep env st "fetch_apollo" RunStatus.succeeded <;> rfl
  rw [hstate, markStep_state_events, markStep_state_calls]
  exact ⟨rfl, rfl⟩

theorem stageApollo_exec (env : Env) (req : OrchestrateRequest) (pq : ParsedQuery)
    (st : St) (r : Res (List Investor)) (hr : stageApollo env req pq st = r)
    (hc : hasSearchCriteria pq = true) (hs : savesOk env) :
    (∃ rest, r.state.events = st.events ++ [("fetch_apollo", RunStatus.running)] ++ rest) ∧
      "apollo" ∈ r.state.calls := by
  unfold stageApollo at hr
  rw [if_pos (by simp [hc])] at hr
  rw [markStep_ok_of_savesOk env hs] at hr
  dsimp only at hr
  cases hc2 : callStep (Res.state (markStep env st "fetch_apollo" RunStatus.running))
      "apollo" (env.apollo (mkCompanyQuery pq) req.options.max_results) with
  | err m st2 =>
    rw [hc2] at hr
    dsimp only at hr
    subst hr
    constructor
    · refine ⟨[], ?_⟩
      show st2.events = _
      rw [← state_of_err hc2, callStep_state_events, markStep_state_events]
      simp
    · show "apollo" ∈ st2.calls
      rw [← state_of_err hc2, callStep_state_calls]
      simp
  | ok comps st2 =>
    rw [hc2] at hr
    dsimp only at hr
    rw [markStep_ok_of_savesOk env hs] at hr
    dsimp only at hr
    subst hr
    constructor
    · refine ⟨[("fetch_apollo", RunStatus.succeeded)], ?_⟩
      show (Res.state (markStep env st2 "fetch_apollo" RunStatus.succeeded)).events = _
      rw [markStep_state_events, ← state_of_ok hc2, callStep_state_events, markStep_state_events]
    · show "apollo" ∈ (Res.state (markStep env st2 "fetch_apollo" RunStatus.succeeded)).calls
      rw [markStep_state_calls, ← state_of_ok hc2, callStep_state_calls]
      exact List.mem_append_right _ (List.mem_singleton.mpr rfl)

theorem stageCalendar_skip (env : Env) (req : OrchestrateRequest) (st : St)
    (hc : req.options.include_calendar = false) : stageCalendar env req st = .ok none st := by
  unfold stageCalendar
  rw [if_neg (by simp [hc])]

theorem stageEmail_skip (env : Env) (req : OrchestrateRequest) (invs : List Investor)
    (avail : Option (List AvailabilitySlot)) (pq : ParsedQuery) (st : St)
    (hc : req.options.include_email_draft = false) :
    stageEmail env req invs avail pq st = .ok none st := by
  unfold stageEmail
  rw [if_neg (by simp [hc])]

theorem stageCreateProject_skip (env : Env) (req : OrchestrateRequest) (pq : ParsedQuery)
    (invs : List Investor) (st : St)
    (hc : (req.options.create_project && !req.options.dry_run) = false) :
    stageCreateProject env req pq invs st = .ok none st := by
  unfold stageCreateProject
  rw [if_neg (by simp [hc])]

theorem stageCreateProject_noname (env : Env) (req : OrchestrateRequest) (pq : ParsedQuery)
    (invs : List Investor) (st : St) (hc : strTruthy pq.new_project = false) :
    stageCreateProject env req pq invs st = .ok none st := by
  unfold stageCreateProject
  rw [if_neg (by simp [hc])]

/-- C8: steps are attempted in the fixed order parse_query →
fetch_airtable → fetch_apollo → merge_filter → export_csv → calendar →
email_draft → create_project: the recorded mark events of every run are
ordered by that sequence and only ever name steps whose gating option
allows them; the fetch_apollo step is recorded directly as succeeded with
no external call exactly when the parsed filter has no industry, location
or investor-type constraint, and the optional steps reduce to no-ops when
not requested (or, for create_project, on a dry run or without an
extracted project name). -/
theorem fixed_step_order (env : Env) (req : OrchestrateRequest)
    (resp : OrchestrateResponse) (stT : St)
    (ho : orchestrate env req = Except.ok (resp, stT)) :
    (List.Pairwise (fun a b => stepIdx a.1 ≤ stepIdx b.1) stT.events ∧
      ∀ e ∈ stT.events, allowedStepName req e.1) ∧
    (∀ pq st, hasSearchCriteria pq = false →
      (Res.state (stageApollo env req pq st)).events =
          st.events ++ [("fetch_apollo", RunStatus.succeeded)] ∧
        (Res.state (stageApollo env req pq st)).calls = st.calls) ∧
    (∀ pq st, hasSearchCriteria pq = true → savesOk env →
      (∃ rest, (Res.state (stageApollo env req pq st)).events =
          st.events ++ [("fetch_apollo", RunStatus.running)] ++ rest) ∧
        "apollo" ∈ (Res.state (stageApollo env req pq st)).calls) ∧
    (req.options.include_calendar = false → ∀ st, stageCalendar env req st = .ok none st) ∧
    (req.options.include_email_draft = false →
      ∀ invs avail pq st, stageEmail env req invs avail pq st = .ok none st) ∧
    ((req.options.create_project && !req.options.dry_run) = false →
      ∀ pq invs st, stageCreateProject env req pq invs st = .ok none st) ∧
    (∀ pq, strTruthy pq.new_project = false →
      ∀ invs st, stageCreateProject env req pq invs st = .ok none st) := by
  refine ⟨?_, fun pq st hc => stageApollo_skip env req pq st hc,
    fun pq st hc hs => stageApollo_exec env req pq st _ rfl hc hs,
    fun hc st => stageCalendar_skip env req st hc,
    fun hc invs avail pq st => stageEmail_skip env req invs avail pq st hc,
    fun hc pq invs st => stageCreateProject_skip env req pq invs st hc,
    fun pq hc invs st => stageCreateProject_noname env req pq invs st hc⟩
  unfold orchestrate at ho
  repeat' split at ho
  all_goals try (cases ho)
  · rename_i p1 stA h1 p2 stB h2 q hbody
    have g0 := goodSt_entry env req stA stB h1 h2
    have hinv := orchestrateBody_invariants env req stB _ hbody g0
    exact ⟨hinv.1.1, fun e he => (hinv.1.2.1 e he).1.1⟩
  · rename_i p1 stA h1 p2 stB h2 q m3 st3 hbody
    have g0 := goodSt_entry env req stA stB h1 h2
    have hinv := orchestrateBody_invariants env req stB _ hbody g0
    dsimp only at ho
    split at ho
    · cases ho
    · cases ho
      rename_i heq9
      have hev4 := congrArg (fun p => p.2.events) heq9
      dsimp only at hev4
      rw [trySave_snd_events] at hev4
      constructor
      · rw [← hev4]
        exact hinv.1.1
      · rw [← hev4]
        exact fun e he => (hinv.1.2.1 e he).1.1

/-- Witness for C8 at a concrete successful run. -/
theorem fixed_step_order_witness :
    orchestrate envAllOk reqDefault = Except.ok (orchOutcome envAllOk reqDefault) ∧
      (List.Pairwise (fun a b => stepIdx a.1 ≤ stepIdx b.1)
          (orchOutcome envAllOk reqDefault).2.events ∧
        ∀ e ∈ (orchOutcome envAllOk reqDefault).2.events, allowedStepName reqDefault e.1) :=
  ⟨rfl, (fixed_step_order envAllOk reqDefault (orchOutcome envAllOk reqDefault).1
    (orchOutcome envAllOk reqDefault).2 rfl).1⟩

/-- C3: when a step raises during `orchestrate` (with persistence healthy)
the run's final status is failed, the error message is captured verbatim in
the run and the response, no later step executes (the handler adds no
collaborator calls and no mark events beyond the raise point), the step
statuses recorded before the failure are preserved unchanged, the failing
step itself is still recorded as running, and the response carries the run
id and status failed. -/
theorem step_failure_semantics (env : Env) (req : OrchestrateRequest) (h : savesOk env)
    (resp : OrchestrateResponse) (stT : St)
    (ho : orchestrate env req = Except.ok (resp, stT))
    (hf : resp.status = RunStatus.failed) :
    ∃ m stF, orchestrateBody env req (readyState env) = Res.err m stF ∧
      resp = { run_id := stF.run.run_id, status := RunStatus.failed, error_message := some m } ∧
      stT.run.steps = stF.run.steps ∧ stT.calls = stF.calls ∧ stT.events = stF.events ∧
      stT.run.status = RunStatus.failed ∧ stT.run.error_message = some m ∧
      stT.run.run_id = env.runId ∧
      ∃ s, lookupStep stF.run.steps s = some RunStatus.running := by
  unfold orchestrate at ho
  repeat' split at ho
  all_goals try (cases ho)
  · rename_i p1 stA h1 p2 stB h2 q hbody
    have hfacts := orchestrateBody_ok_facts env req stB resp stT hbody
    rw [hfacts.1] at hf
    cases hf
  · rename_i p1 stA h1 p2 stB h2 q m3 st3 hbody
    have e1 := congrArg Prod.snd ((trySave_ok env h (initialState env)).symm.trans h1)
    dsimp only at e1
    subst e1
    have e2 := congrArg Prod.snd ((trySave_ok env h _).symm.trans h2)
    dsimp only at e2
    subst e2
    have hbodyR : orchestrateBody env req (readyState env) = Res.err m3 st3 := hbody
    have g0 := goodSt_entry env req _ _ h1 h2
    have hinv := orchestrateBody_invariants env req _ _ hbody g0
    dsimp only at ho
    split at ho
    · cases ho
    · cases ho
      rename_i heq9
      have hrun4 := congrArg (fun p => p.2.run) heq9
      dsimp only at hrun4
      rw [trySave_snd_run] at hrun4
      have hev4 := congrArg (fun p => p.2.events) heq9
      dsimp only at hev4
      rw [trySave_snd_events] at hev4
      have hcalls4 := congrArg (fun p => p.2.calls) heq9
      dsimp only at hcalls4
      rw [trySave_snd_calls] at hcalls4
      refine ⟨m3, st3, hbodyR, ?_, ?_, ?_, ?_, ?_, ?_, ?_, hinv.2 h m3 st3 rfl⟩
      · rw [← hrun4]
      · rw [← hrun4]
      · exact hcalls4.symm
      · exact hev4.symm
      · rw [← hrun4]
      · rw [← hrun4]
      · rw [← hrun4]
        exact hinv.1.2.2.2


/-- Witness for C3: a concrete run whose export step raises; the theorem's
hypotheses are discharged by evaluation. -/
theorem step_failure_semantics_witness :
    savesOk envExportCrash ∧
      (orchOutcome envExportCrash reqDefault).1.status = RunStatus.failed ∧
      ∃ m stF, orchestrateBody envExportCrash reqDefault (readyState envExportCrash) = Res.err m stF ∧
        (orchOutcome envExportCrash reqDefault).1 = { run_id := stF.run.run_id, status := RunStatus.failed, error_message := some m } ∧
        (orchOutcome envExportCrash reqDefault).2.run.steps = stF.run.steps ∧
        ∃ s, lookupStep stF.run.steps s = some RunStatus.running := by
  refine ⟨fun _ => rfl, rfl, ?_⟩
  obtain ⟨m, stF, h1, h2, h3, h4, h5, h6, h7, h8, h9⟩ :=
    step_failure_semantics envExportCrash reqDefault (fun _ => rfl)
      (orchOutcome envExportCrash reqDefault).1 (orchOutcome envExportCrash reqDefault).2 rfl rfl
  exact ⟨m, stF, h1, h2, h3, h9⟩

end Jockey
